import Mathlib

/-!
Shallow embedding of `src/coordinates/minkowski_cartesian.cpp` (Athena,
Minkowski spacetime in Cartesian coordinates): the `Coordinates` constructor
that fills the volume-averaged cell-center positions and spacings of its
parent mesh block, the per-row face-area and cell-volume queries, and the
(vanishing) coordinate source terms.

Modelling choices:
* `Real` (C++ `double`) is modelled by `ℚ`, so that arithmetic is exact and
  concrete instances evaluate.
* `AthenaArray<Real>` is modelled by a total function `Int → ℚ`; an element
  assignment `a(i) = v` becomes the functional update `upd a i v`.
* a C `for (int i = lo; i <= hi; i++)` loop whose body assigns `a(i) = v(i)`
  becomes `writeRange lo hi v a`, a left fold of updates over the integer
  list `[lo, lo+1, …, hi]` (empty when `lo > hi`, exactly as the C loop).
* the macro `NGHOST` (defined in a header outside this file) is kept as an
  explicit integer parameter `g` of the constructor.
-/

namespace Minkowski

/-- Functional update of an integer-indexed array: `a` with index `i` set to `v`. -/
def upd (a : Int → ℚ) (i : Int) (v : ℚ) : Int → ℚ :=
  fun j => if j = i then v else a j

/-- List `[lo, lo+1, …, lo+n-1]` of `n` consecutive integers starting at `lo`. -/
def intRangeAux : Nat → Int → List Int
  | 0, _ => []
  | Nat.succ n, lo => lo :: intRangeAux n (lo + 1)

/-- Inclusive integer range `[lo, …, hi]`; empty when `lo > hi`, matching the
iteration space of `for (int i = lo; i <= hi; i++)`. -/
def intRange (lo hi : Int) : List Int :=
  intRangeAux (hi + 1 - lo).toNat lo

/-- Model of a loop `for (int i = lo; i <= hi; i++) a(i) = v(i);` where the
values `v` do not depend on the entries the loop itself writes. -/
def writeRange (lo hi : Int) (v : Int → ℚ) (a : Int → ℚ) : Int → ℚ :=
  (intRange lo hi).foldl (fun b i => upd b i (v i)) a

/-- Mesh block (the external `Block` of `mesh.hpp`): interior index bounds per
axis, per-axis cell counts `block_size.nx#`, face positions `x#f`, face
spacings `dx#f`, and the center/spacing arrays `x#v`, `dx#v` that the
`Coordinates` constructor fills in. -/
structure Block where
  is : Int
  ie : Int
  js : Int
  je : Int
  ks : Int
  ke : Int
  nx1 : Int
  nx2 : Int
  nx3 : Int
  x1f : Int → ℚ
  x2f : Int → ℚ
  x3f : Int → ℚ
  dx1f : Int → ℚ
  dx2f : Int → ℚ
  dx3f : Int → ℚ
  x1v : Int → ℚ
  x2v : Int → ℚ
  x3v : Int → ℚ
  dx1v : Int → ℚ
  dx2v : Int → ℚ
  dx3v : Int → ℚ

/-- First constructor loop, x-direction centers:
`for (i = is-NGHOST; i <= ie+NGHOST; i++) x1v(i) = 0.5*(x1f(i)+x1f(i+1));`.
`g` stands for the macro `NGHOST`. -/
def x1vNew (g : Int) (pb : Block) : Int → ℚ :=
  writeRange (pb.is - g) (pb.ie + g)
    (fun i => (1/2 : ℚ) * (pb.x1f i + pb.x1f (i + 1))) pb.x1v

/-- Second constructor loop, x-direction spacings: runs after the `x1v` loop,
`for (i = is-NGHOST; i <= ie+NGHOST-1; i++) dx1v(i) = x1v(i+1) - x1v(i);`,
reading the centers the previous loop wrote. -/
def dx1vNew (g : Int) (pb : Block) : Int → ℚ :=
  writeRange (pb.is - g) (pb.ie + g - 1)
    (fun i => x1vNew g pb (i + 1) - x1vNew g pb i) pb.dx1v

/-- Constructor y-direction centers: when `block_size.nx2 == 1` the single
write `x2v(js) = 0.5*(x2f(js)+x2f(js+1));`, otherwise the loop over
`[js-NGHOST, je+NGHOST]`. -/
def x2vNew (g : Int) (pb : Block) : Int → ℚ :=
  if pb.nx2 = 1 then
    upd pb.x2v pb.js ((1/2 : ℚ) * (pb.x2f pb.js + pb.x2f (pb.js + 1)))
  else
    writeRange (pb.js - g) (pb.je + g)
      (fun j => (1/2 : ℚ) * (pb.x2f j + pb.x2f (j + 1))) pb.x2v

/-- Constructor y-direction spacings: when `block_size.nx2 == 1` the single
write `dx2v(js) = dx2f(js);`, otherwise the loop
`for (j = js-NGHOST; j <= je+NGHOST-1; j++) dx2v(j) = x2v(j+1) - x2v(j);`
over the centers written by the matching branch of the `x2v` computation. -/
def dx2vNew (g : Int) (pb : Block) : Int → ℚ :=
  if pb.nx2 = 1 then
    upd pb.dx2v pb.js (pb.dx2f pb.js)
  else
    writeRange (pb.js - g) (pb.je + g - 1)
      (fun j => x2vNew g pb (j + 1) - x2vNew g pb j) pb.dx2v

/-- Constructor z-direction centers: when `block_size.nx3 == 1` the single
write `x3v(ks) = 0.5*(x3f(ks)+x3f(ks+1));`, otherwise the loop over
`[ks-NGHOST, ke+NGHOST]`. -/
def x3vNew (g : Int) (pb : Block) : Int → ℚ :=
  if pb.nx3 = 1 then
    upd pb.x3v pb.ks ((1/2 : ℚ) * (pb.x3f pb.ks + pb.x3f (pb.ks + 1)))
  else
    writeRange (pb.ks - g) (pb.ke + g)
      (fun k => (1/2 : ℚ) * (pb.x3f k + pb.x3f (k + 1))) pb.x3v

/-- Constructor z-direction spacings: when `block_size.nx3 == 1` the single
write `dx3v(ks) = dx3f(ks);`, otherwise the loop over `[ks-NGHOST, ke+NGHOST-1]`
of differences of the centers written by the matching `x3v` branch. -/
def dx3vNew (g : Int) (pb : Block) : Int → ℚ :=
  if pb.nx3 = 1 then
    upd pb.dx3v pb.ks (pb.dx3f pb.ks)
  else
    writeRange (pb.ks - g) (pb.ke + g - 1)
      (fun k => x3vNew g pb (k + 1) - x3vNew g pb k) pb.dx3v

/-- Body of `Coordinates::Coordinates(Block *pb)` acting on the parent block:
the six center/spacing arrays are overwritten as in the source's six loops
(or single-write degenerate branches); every other field of the block is
untouched. -/
def ctorBlock (g : Int) (pb : Block) : Block :=
  { pb with x1v := x1vNew g pb, dx1v := dx1vNew g pb,
            x2v := x2vNew g pb, dx2v := dx2vNew g pb,
            x3v := x3vNew g pb, dx3v := dx3vNew g pb }

/-- State a `Coordinates` instance can reach through its methods: the parent
block (through `pparent_block`) and the two scratch arrays allocated by the
constructor (`face_area`, `cell_volume`). -/
structure Coordinates where
  pb : Block
  face_area : Int → ℚ
  cell_volume : Int → ℚ

/-- Full constructor: fills the block's center/spacing arrays and allocates
the zero-initialized scratch arrays sized by `nx1 + 2*NGHOST` (sizes are not
tracked by the function model; fresh arrays are all-zero). -/
def coordinatesCtor (g : Int) (pb : Block) : Coordinates :=
  { pb := ctorBlock g pb, face_area := fun _ => 0, cell_volume := fun _ => 0 }

/-- Method `Coordinates::Area1Face(k, j, il, iu, areas)`: for `i` in
`[il, iu]`, `areas(i) = dx2f(j) * dx3f(k)`. The method assigns only to
`areas(i)`; the instance state is returned unchanged, as in the source. -/
def area1Face (c : Coordinates) (k j il iu : Int) (areas : Int → ℚ) :
    Coordinates × (Int → ℚ) :=
  (c, writeRange il iu (fun _ => c.pb.dx2f j * c.pb.dx3f k) areas)

/-- Method `Coordinates::Area2Face(k, j, il, iu, areas)`: for `i` in
`[il, iu]`, `areas(i) = dx1f(i) * dx3f(k)`. -/
def area2Face (c : Coordinates) (k j il iu : Int) (areas : Int → ℚ) :
    Coordinates × (Int → ℚ) :=
  (c, writeRange il iu (fun i => c.pb.dx1f i * c.pb.dx3f k) areas)

/-- Method `Coordinates::Area3Face(k, j, il, iu, areas)`: for `i` in
`[il, iu]`, `areas(i) = dx1f(i) * dx2f(j)`. -/
def area3Face (c : Coordinates) (k j il iu : Int) (areas : Int → ℚ) :
    Coordinates × (Int → ℚ) :=
  (c, writeRange il iu (fun i => c.pb.dx1f i * c.pb.dx2f j) areas)

/-- Method `Coordinates::CellVolume(k, j, il, iu, volumes)`: for `i` in
`[il, iu]`, `volumes(i) = dx1f(i) * dx2f(j) * dx3f(k)`. -/
def cellVolume (c : Coordinates) (k j il iu : Int) (volumes : Int → ℚ) :
    Coordinates × (Int → ℚ) :=
  (c, writeRange il iu (fun i => c.pb.dx1f i * c.pb.dx2f j * c.pb.dx3f k) volumes)

/-- Method `Coordinates::CoordinateSourceTerms(k, j, prim, sources)`: the body
is a bare `return;`, so neither the instance state nor the output array is
touched. -/
def coordinateSourceTerms (c : Coordinates) (k j : Int)
    (prim : Int → ℚ) (sources : Int → ℚ) : Coordinates × (Int → ℚ) :=
  (c, sources)

/-- Modelled from the spec: the Mesh/Block component that populates the
face-position and face-spacing arrays is not part of this file's source; per
the spec it precomputes ordered face positions, the face spacing being the
width between consecutive faces. A well-formed block therefore satisfies
`dx#f(i) = x#f(i+1) - x#f(i)` on every axis and index. -/
def FaceConsistent (pb : Block) : Prop :=
  (∀ i : Int, pb.dx1f i = pb.x1f (i + 1) - pb.x1f i) ∧
  (∀ j : Int, pb.dx2f j = pb.x2f (j + 1) - pb.x2f j) ∧
  (∀ k : Int, pb.dx3f k = pb.x3f (k + 1) - pb.x3f k)

/- ### Range and write lemmas -/

theorem mem_intRangeAux {i : Int} :
    ∀ (n : Nat) (lo : Int), i ∈ intRangeAux n lo ↔ lo ≤ i ∧ i < lo + n := by
  intro n
  induction n with
  | zero => intro lo; simp [intRangeAux]
  | succ n ih =>
      intro lo
      simp only [intRangeAux, List.mem_cons, ih (lo + 1)]
      omega

theorem mem_intRange {i lo hi : Int} :
    i ∈ intRange lo hi ↔ lo ≤ i ∧ i ≤ hi := by
  rw [intRange, mem_intRangeAux]
  omega

theorem foldl_upd_intRangeAux (v : Int → ℚ) :
    ∀ (n : Nat) (lo : Int) (a : Int → ℚ) (i : Int),
    ((intRangeAux n lo).foldl (fun b j => upd b j (v j)) a) i
      = if lo ≤ i ∧ i < lo + n then v i else a i := by
  intro n
  induction n with
  | zero =>
      intro lo a i
      simp only [intRangeAux, List.foldl_nil]
      rw [if_neg]; omega
  | succ n ih =>
      intro lo a i
      simp only [intRangeAux, List.foldl_cons]
      rw [ih (lo + 1)]
      rcases eq_or_ne i lo with heq | hne
      · subst heq
        simp only [upd, if_pos rfl]
        split_ifs <;> first | rfl | omega
      · simp only [upd, if_neg hne]
        split_ifs <;> first | rfl | omega

/-- Pointwise description of `writeRange`: indices inside `[lo, hi]` hold the
new value, every other index keeps the old array's entry. -/
theorem writeRange_apply (lo hi : Int) (v : Int → ℚ) (a : Int → ℚ) (i : Int) :
    writeRange lo hi v a i = if lo ≤ i ∧ i ≤ hi then v i else a i := by
  rw [writeRange, intRange, foldl_upd_intRangeAux]
  by_cases h : lo ≤ i ∧ i ≤ hi
  · rw [if_pos (by omega), if_pos h]
  · rw [if_neg (by omega), if_neg h]

theorem writeRange_apply_of_mem {lo hi : Int} (v : Int → ℚ) (a : Int → ℚ)
    {i : Int} (h1 : lo ≤ i) (h2 : i ≤ hi) :
    writeRange lo hi v a i = v i := by
  rw [writeRange_apply, if_pos ⟨h1, h2⟩]

theorem writeRange_apply_of_not_mem {lo hi : Int} (v : Int → ℚ) (a : Int → ℚ)
    {i : Int} (h : i < lo ∨ hi < i) :
    writeRange lo hi v a i = a i := by
  rw [writeRange_apply, if_neg (by omega)]

/- ### Pointwise description of the constructor's writes -/

theorem x1vNew_apply (g : Int) (pb : Block) (i : Int) :
    x1vNew g pb i =
      if pb.is - g ≤ i ∧ i ≤ pb.ie + g
      then (1/2 : ℚ) * (pb.x1f i + pb.x1f (i + 1)) else pb.x1v i := by
  rw [x1vNew, writeRange_apply]

theorem dx1vNew_apply (g : Int) (pb : Block) (i : Int) :
    dx1vNew g pb i =
      if pb.is - g ≤ i ∧ i ≤ pb.ie + g - 1
      then x1vNew g pb (i + 1) - x1vNew g pb i else pb.dx1v i := by
  rw [dx1vNew, writeRange_apply]

theorem x2vNew_unit (g : Int) (pb : Block) (h : pb.nx2 = 1) (j : Int) :
    x2vNew g pb j =
      if j = pb.js
      then (1/2 : ℚ) * (pb.x2f pb.js + pb.x2f (pb.js + 1)) else pb.x2v j := by
  rw [x2vNew, if_pos h]; rfl

theorem dx2vNew_unit (g : Int) (pb : Block) (h : pb.nx2 = 1) (j : Int) :
    dx2vNew g pb j = if j = pb.js then pb.dx2f pb.js else pb.dx2v j := by
  rw [dx2vNew, if_pos h]; rfl

theorem x2vNew_ext (g : Int) (pb : Block) (h : pb.nx2 ≠ 1) (j : Int) :
    x2vNew g pb j =
      if pb.js - g ≤ j ∧ j ≤ pb.je + g
      then (1/2 : ℚ) * (pb.x2f j + pb.x2f (j + 1)) else pb.x2v j := by
  rw [x2vNew, if_neg h, writeRange_apply]

theorem dx2vNew_ext (g : Int) (pb : Block) (h : pb.nx2 ≠ 1) (j : Int) :
    dx2vNew g pb j =
      if pb.js - g ≤ j ∧ j ≤ pb.je + g - 1
      then x2vNew g pb (j + 1) - x2vNew g pb j else pb.dx2v j := by
  rw [dx2vNew, if_neg h, writeRange_apply]

theorem x3vNew_unit (g : Int) (pb : Block) (h : pb.nx3 = 1) (k : Int) :
    x3vNew g pb k =
      if k = pb.ks
      then (1/2 : ℚ) * (pb.x3f pb.ks + pb.x3f (pb.ks + 1)) else pb.x3v k := by
  rw [x3vNew, if_pos h]; rfl

theorem dx3vNew_unit (g : Int) (pb : Block) (h : pb.nx3 = 1) (k : Int) :
    dx3vNew g pb k = if k = pb.ks then pb.dx3f pb.ks else pb.dx3v k := by
  rw [dx3vNew, if_pos h]; rfl

theorem x3vNew_ext (g : Int) (pb : Block) (h : pb.nx3 ≠ 1) (k : Int) :
    x3vNew g pb k =
      if pb.ks - g ≤ k ∧ k ≤ pb.ke + g
      then (1/2 : ℚ) * (pb.x3f k + pb.x3f (k + 1)) else pb.x3v k := by
  rw [x3vNew, if_neg h, writeRange_apply]

theorem dx3vNew_ext (g : Int) (pb : Block) (h : pb.nx3 ≠ 1) (k : Int) :
    dx3vNew g pb k =
      if pb.ks - g ≤ k ∧ k ≤ pb.ke + g - 1
      then x3vNew g pb (k + 1) - x3vNew g pb k else pb.dx3v k := by
  rw [dx3vNew, if_neg h, writeRange_apply]

theorem ctorBlock_x1v (g : Int) (pb : Block) : (ctorBlock g pb).x1v = x1vNew g pb := rfl

theorem ctorBlock_dx1v (g : Int) (pb : Block) : (ctorBlock g pb).dx1v = dx1vNew g pb := rfl

theorem ctorBlock_x2v (g : Int) (pb : Block) : (ctorBlock g pb).x2v = x2vNew g pb := rfl

theorem ctorBlock_dx2v (g : Int) (pb : Block) : (ctorBlock g pb).dx2v = dx2vNew g pb := rfl

theorem ctorBlock_x3v (g : Int) (pb : Block) : (ctorBlock g pb).x3v = x3vNew g pb := rfl

theorem ctorBlock_dx3v (g : Int) (pb : Block) : (ctorBlock g pb).dx3v = dx3vNew g pb := rfl

/- ### Telescoping sums of inter-center spacings -/

theorem sum_map_sub_intRangeAux (c : Int → ℚ) :
    ∀ (n : Nat) (lo : Int),
    ((intRangeAux n lo).map (fun i => c (i + 1) - c i)).sum = c (lo + n) - c lo := by
  intro n
  induction n with
  | zero => intro lo; simp [intRangeAux]
  | succ n ih =>
      intro lo
      simp only [intRangeAux, List.map_cons, List.sum_cons, ih (lo + 1)]
      have harg : lo + 1 + (n : Int) = lo + ((n : Int) + 1) := by ring
      push_cast
      rw [harg]
      ring

/-- Telescoping: the sum of consecutive-center differences over `[lo, hi-1]`
collapses to `c hi - c lo` whenever `lo ≤ hi`. -/
theorem sum_intRange_sub (c : Int → ℚ) (lo hi : Int) (hle : lo ≤ hi) :
    ((intRange lo (hi - 1)).map (fun i => c (i + 1) - c i)).sum = c hi - c lo := by
  rw [intRange, sum_map_sub_intRangeAux]
  have : lo + ((hi - 1 + 1 - lo).toNat : Int) = hi := by omega
  rw [this]

/- ### Concrete blocks used to instantiate the theorems -/

/-- Concrete block realizing the spec's worked scenario: interior `[2,5]`
along x with faces at `x = i` (spacing 1), faces `y = 2j` (spacing 2) and
`z = 3k` (spacing 3); center/spacing arrays still zeroed. -/
def sampleBlock : Block :=
  { is := 2, ie := 5, js := 2, je := 3, ks := 2, ke := 3,
    nx1 := 4, nx2 := 2, nx3 := 2,
    x1f := fun i => (i : ℚ), x2f := fun j => 2 * (j : ℚ), x3f := fun k => 3 * (k : ℚ),
    dx1f := fun _ => 1, dx2f := fun _ => 2, dx3f := fun _ => 3,
    x1v := fun _ => 0, x2v := fun _ => 0, x3v := fun _ => 0,
    dx1v := fun _ => 0, dx2v := fun _ => 0, dx3v := fun _ => 0 }

/-- Coordinates instance over `sampleBlock`, scratch arrays zeroed. -/
def sampleCoord : Coordinates :=
  { pb := sampleBlock, face_area := fun _ => 0, cell_volume := fun _ => 0 }

/-- Block with exactly one cell along every axis (`is = ie = js = je = ks = ke
= 2`, all `nx# = 1`); axis-1 faces at `x = i^2` are deliberately non-uniform,
with the matching face spacings `dx1f(i) = 2i+1`. -/
def oneCellBlock : Block :=
  { is := 2, ie := 2, js := 2, je := 2, ks := 2, ke := 2,
    nx1 := 1, nx2 := 1, nx3 := 1,
    x1f := fun i => (i : ℚ) * (i : ℚ), x2f := fun j => 2 * (j : ℚ),
    x3f := fun k => 3 * (k : ℚ),
    dx1f := fun i => 2 * (i : ℚ) + 1, dx2f := fun _ => 2, dx3f := fun _ => 3,
    x1v := fun _ => 0, x2v := fun _ => 0, x3v := fun _ => 0,
    dx1v := fun _ => 0, dx2v := fun _ => 0, dx3v := fun _ => 0 }

/-- Uniform block with two interior cells per axis: interior `[2,3]` on every
axis, faces `x = i`, `y = 2j`, `z = 3k`. -/
def uniBlock : Block :=
  { is := 2, ie := 3, js := 2, je := 3, ks := 2, ke := 3,
    nx1 := 2, nx2 := 2, nx3 := 2,
    x1f := fun i => (i : ℚ), x2f := fun j => 2 * (j : ℚ), x3f := fun k => 3 * (k : ℚ),
    dx1f := fun _ => 1, dx2f := fun _ => 2, dx3f := fun _ => 3,
    x1v := fun _ => 0, x2v := fun _ => 0, x3v := fun _ => 0,
    dx1v := fun _ => 0, dx2v := fun _ => 0, dx3v := fun _ => 0 }

/-- Block whose interior index bounds are inverted on every axis
(`is = 3 > 1 = ie`, …): a malformed input in the sense of the spec's
precondition discussion. -/
def invBlock : Block :=
  { is := 3, ie := 1, js := 3, je := 1, ks := 3, ke := 1,
    nx1 := -1, nx2 := -1, nx3 := -1,
    x1f := fun i => (i : ℚ), x2f := fun j => 2 * (j : ℚ), x3f := fun k => 3 * (k : ℚ),
    dx1f := fun _ => 1, dx2f := fun _ => 2, dx3f := fun _ => 3,
    x1v := fun _ => 0, x2v := fun _ => 0, x3v := fun _ => 0,
    dx1v := fun _ => 0, dx2v := fun _ => 0, dx3v := fun _ => 0 }

/- ### Claims about the per-step queries -/

/-- C1: for every cell index `i` in the requested inclusive range `[il, iu]`,
with transverse indices `j` and `k`, `CellVolume` writes `volumes(i)` equal to
the product of the three face spacings `dx1f(i) * dx2f(j) * dx3f(k)`. -/
theorem cellVolume_writes_product (c : Coordinates) (k j il iu : Int)
    (volumes : Int → ℚ) (i : Int) (h1 : il ≤ i) (h2 : i ≤ iu) :
    (cellVolume c k j il iu volumes).2 i
      = c.pb.dx1f i * c.pb.dx2f j * c.pb.dx3f k := by
  simp only [cellVolume]
  exact writeRange_apply_of_mem _ _ h1 h2

/-- Witness for C1: on the spec's sample block, `CellVolume` over `[2, 5]`
yields `1 * 2 * 3 = 6` at index `3`. -/
theorem cellVolume_writes_product_witness :
    ((2 : Int) ≤ 3 ∧ (3 : Int) ≤ 5) ∧
    (cellVolume sampleCoord 2 2 2 5 (fun _ => 0)).2 3 = 6 := by
  refine ⟨⟨by norm_num, by norm_num⟩, ?_⟩
  rw [cellVolume_writes_product sampleCoord 2 2 2 5 (fun _ => 0) 3
    (by norm_num) (by norm_num)]
  norm_num [sampleCoord, sampleBlock]

/-- C2: each face-area query fills the buffer over `[il, iu]` with the product
of the face spacings along the two complementary axes (`Area1Face`:
`dx2f(j)*dx3f(k)`; `Area2Face`: `dx1f(i)*dx3f(k)`; `Area3Face`:
`dx1f(i)*dx2f(j)`), and the axis-1 area is the same value at every index of
the range. -/
theorem areaFaces_write_products (c : Coordinates) (k j il iu : Int)
    (areas : Int → ℚ) (i : Int) (h1 : il ≤ i) (h2 : i ≤ iu) :
    (area1Face c k j il iu areas).2 i = c.pb.dx2f j * c.pb.dx3f k ∧
    (area2Face c k j il iu areas).2 i = c.pb.dx1f i * c.pb.dx3f k ∧
    (area3Face c k j il iu areas).2 i = c.pb.dx1f i * c.pb.dx2f j ∧
    (∀ i', il ≤ i' → i' ≤ iu →
      (area1Face c k j il iu areas).2 i = (area1Face c k j il iu areas).2 i') := by
  refine ⟨?_, ?_, ?_, ?_⟩
  · simp only [area1Face]
    exact writeRange_apply_of_mem _ _ h1 h2
  · simp only [area2Face]
    exact writeRange_apply_of_mem _ _ h1 h2
  · simp only [area3Face]
    exact writeRange_apply_of_mem _ _ h1 h2
  · intro i' h1i h2i
    simp only [area1Face]
    rw [writeRange_apply_of_mem _ _ h1 h2, writeRange_apply_of_mem _ _ h1i h2i]

/-- Witness for C2: on the sample block the three area queries over `[2, 5]`
yield `2*3 = 6`, `1*3 = 3` and `1*2 = 2` at index `3`, and the axis-1 area at
index `3` equals the one at index `4`. -/
theorem areaFaces_write_products_witness :
    ((2 : Int) ≤ 3 ∧ (3 : Int) ≤ 5) ∧
    (area1Face sampleCoord 2 2 2 5 (fun _ => 0)).2 3 = 6 ∧
    (area2Face sampleCoord 2 2 2 5 (fun _ => 0)).2 3 = 3 ∧
    (area3Face sampleCoord 2 2 2 5 (fun _ => 0)).2 3 = 2 ∧
    (area1Face sampleCoord 2 2 2 5 (fun _ => 0)).2 3
      = (area1Face sampleCoord 2 2 2 5 (fun _ => 0)).2 4 := by
  obtain ⟨e1, e2, e3, e4⟩ :=
    areaFaces_write_products sampleCoord 2 2 2 5 (fun _ => 0) 3 (by norm_num) (by norm_num)
  refine ⟨⟨by norm_num, by norm_num⟩, ?_, ?_, ?_, e4 4 (by norm_num) (by norm_num)⟩
  · rw [e1]; norm_num [sampleCoord, sampleBlock]
  · rw [e2]; norm_num [sampleCoord, sampleBlock]
  · rw [e3]; norm_num [sampleCoord, sampleBlock]

/-- C3: `CoordinateSourceTerms` is a no-op for every transverse index pair and
every primitive input: the output buffer is returned exactly as supplied, and
the instance state is untouched. -/
theorem coordinateSourceTerms_noop (c : Coordinates) (k j : Int)
    (prim sources : Int → ℚ) :
    (coordinateSourceTerms c k j prim sources).2 = sources ∧
    (coordinateSourceTerms c k j prim sources).1 = c :=
  ⟨rfl, rfl⟩

/-- C7: every face-area and cell-volume query leaves each buffer entry at an
index outside `[il, iu]` exactly unchanged, and a call with an empty range
(`il > iu`) leaves the entire buffer unchanged. -/
theorem queries_leave_outside_unchanged (c : Coordinates) (k j il iu : Int)
    (buf : Int → ℚ) :
    (∀ i, i < il ∨ iu < i →
      (area1Face c k j il iu buf).2 i = buf i ∧
      (area2Face c k j il iu buf).2 i = buf i ∧
      (area3Face c k j il iu buf).2 i = buf i ∧
      (cellVolume c k j il iu buf).2 i = buf i) ∧
    (iu < il →
      (area1Face c k j il iu buf).2 = buf ∧
      (area2Face c k j il iu buf).2 = buf ∧
      (area3Face c k j il iu buf).2 = buf ∧
      (cellVolume c k j il iu buf).2 = buf) := by
  constructor
  · intro i h
    exact ⟨writeRange_apply_of_not_mem _ _ h, writeRange_apply_of_not_mem _ _ h,
           writeRange_apply_of_not_mem _ _ h, writeRange_apply_of_not_mem _ _ h⟩
  · intro hlt
    refine ⟨funext fun i => ?_, funext fun i => ?_, funext fun i => ?_,
            funext fun i => ?_⟩
    all_goals exact writeRange_apply_of_not_mem _ _ (by omega)

/-- Witness for C7: index `5` outside the range `[2, 4]` keeps its value `7`,
and the empty range `[3, 1]` leaves the whole buffer intact. -/
theorem queries_leave_outside_unchanged_witness :
    ((5 : Int) < 2 ∨ (4 : Int) < 5) ∧
    (area1Face sampleCoord 2 2 2 4 (fun _ => 7)).2 5 = 7 ∧
    ((1 : Int) < 3) ∧
    (cellVolume sampleCoord 2 2 3 1 (fun _ => 7)).2 = fun _ => 7 := by
  refine ⟨Or.inr (by norm_num), ?_, by norm_num, ?_⟩
  · exact ((queries_leave_outside_unchanged sampleCoord 2 2 2 4 (fun _ => 7)).1 5
      (Or.inr (by norm_num))).1
  · exact ((queries_leave_outside_unchanged sampleCoord 2 2 3 1 (fun _ => 7)).2
      (by norm_num)).2.2.2

/-- C10: every per-step query (the three area queries, `CellVolume`,
`CoordinateSourceTerms`) leaves the instance state — the parent block with all
its arrays, and the scratch buffers — unchanged; the only memory written is
the caller's buffer at indices in `[il, iu]` (none at all for
`CoordinateSourceTerms`). -/
theorem queries_write_only_buffer (c : Coordinates) (k j il iu : Int)
    (buf prim : Int → ℚ) :
    ((area1Face c k j il iu buf).1 = c ∧
     (area2Face c k j il iu buf).1 = c ∧
     (area3Face c k j il iu buf).1 = c ∧
     (cellVolume c k j il iu buf).1 = c ∧
     (coordinateSourceTerms c k j prim buf).1 = c) ∧
    (∀ i, i < il ∨ iu < i →
      (area1Face c k j il iu buf).2 i = buf i ∧
      (area2Face c k j il iu buf).2 i = buf i ∧
      (area3Face c k j il iu buf).2 i = buf i ∧
      (cellVolume c k j il iu buf).2 i = buf i) ∧
    (coordinateSourceTerms c k j prim buf).2 = buf := by
  refine ⟨⟨rfl, rfl, rfl, rfl, rfl⟩, fun i h => ?_, rfl⟩
  exact ⟨writeRange_apply_of_not_mem _ _ h, writeRange_apply_of_not_mem _ _ h,
         writeRange_apply_of_not_mem _ _ h, writeRange_apply_of_not_mem _ _ h⟩

/-- Witness for C10: a query on the sample instance returns the instance state
unchanged and preserves the buffer at index `8`, outside the range `[0, 2]`. -/
theorem queries_write_only_buffer_witness :
    (area2Face sampleCoord 2 2 0 2 (fun _ => 9)).1 = sampleCoord ∧
    (area3Face sampleCoord 2 2 0 2 (fun _ => 9)).2 8 = 9 := by
  obtain ⟨hs, ho, _⟩ :=
    queries_write_only_buffer sampleCoord 2 2 0 2 (fun _ => 9) (fun _ => 0)
  exact ⟨hs.2.1, (ho 8 (Or.inr (by norm_num))).2.2.1⟩

/- ### Claims about the constructor -/

/-- C4: for every axis of extent greater than one cell, the constructor writes
the cell centers `x#v(i) = 0.5*(x#f(i) + x#f(i+1))` over the ghost-extended
range `[lower-ghost-bound, upper-ghost-bound]` and the spacings
`dx#v(i) = x#v(i+1) - x#v(i)` over `[lower-ghost-bound, upper-ghost-bound-1]`. -/
theorem ctor_centers_and_spacings (g : Int) (pb : Block) :
    (1 < pb.nx1 →
      (∀ i, pb.is - g ≤ i → i ≤ pb.ie + g →
        (ctorBlock g pb).x1v i = (1/2 : ℚ) * (pb.x1f i + pb.x1f (i + 1))) ∧
      (∀ i, pb.is - g ≤ i → i ≤ pb.ie + g - 1 →
        (ctorBlock g pb).dx1v i
          = (ctorBlock g pb).x1v (i + 1) - (ctorBlock g pb).x1v i)) ∧
    (1 < pb.nx2 →
      (∀ j, pb.js - g ≤ j → j ≤ pb.je + g →
        (ctorBlock g pb).x2v j = (1/2 : ℚ) * (pb.x2f j + pb.x2f (j + 1))) ∧
      (∀ j, pb.js - g ≤ j → j ≤ pb.je + g - 1 →
        (ctorBlock g pb).dx2v j
          = (ctorBlock g pb).x2v (j + 1) - (ctorBlock g pb).x2v j)) ∧
    (1 < pb.nx3 →
      (∀ k, pb.ks - g ≤ k → k ≤ pb.ke + g →
        (ctorBlock g pb).x3v k = (1/2 : ℚ) * (pb.x3f k + pb.x3f (k + 1))) ∧
      (∀ k, pb.ks - g ≤ k → k ≤ pb.ke + g - 1 →
        (ctorBlock g pb).dx3v k
          = (ctorBlock g pb).x3v (k + 1) - (ctorBlock g pb).x3v k)) := by
  refine ⟨fun _ => ⟨fun i hi1 hi2 => ?_, fun i hi1 hi2 => ?_⟩,
          fun h2 => ⟨fun j hj1 hj2 => ?_, fun j hj1 hj2 => ?_⟩,
          fun h3 => ⟨fun k hk1 hk2 => ?_, fun k hk1 hk2 => ?_⟩⟩
  · rw [ctorBlock_x1v, x1vNew_apply, if_pos ⟨hi1, hi2⟩]
  · rw [ctorBlock_dx1v, ctorBlock_x1v, dx1vNew_apply, if_pos ⟨hi1, hi2⟩]
  · have hne : pb.nx2 ≠ 1 := by omega
    rw [ctorBlock_x2v, x2vNew_ext g pb hne, if_pos ⟨hj1, hj2⟩]
  · have hne : pb.nx2 ≠ 1 := by omega
    rw [ctorBlock_dx2v, ctorBlock_x2v, dx2vNew_ext g pb hne, if_pos ⟨hj1, hj2⟩]
  · have hne : pb.nx3 ≠ 1 := by omega
    rw [ctorBlock_x3v, x3vNew_ext g pb hne, if_pos ⟨hk1, hk2⟩]
  · have hne : pb.nx3 ≠ 1 := by omega
    rw [ctorBlock_dx3v, ctorBlock_x3v, dx3vNew_ext g pb hne, if_pos ⟨hk1, hk2⟩]

/-- Witness for C4: `uniBlock` has extent `2` on every axis; with `g = 2` the
centers and spacings computed at the lower ghost bound match the midpoint and
center-difference formulas. -/
theorem ctor_centers_and_spacings_witness :
    (1 < uniBlock.nx1 ∧ 1 < uniBlock.nx2 ∧ 1 < uniBlock.nx3 ∧
     uniBlock.is - 2 ≤ 0 ∧ (0 : Int) ≤ uniBlock.ie + 2 ∧
     (0 : Int) ≤ uniBlock.ie + 2 - 1) ∧
    (ctorBlock 2 uniBlock).x1v 0 = (1/2 : ℚ) * (uniBlock.x1f 0 + uniBlock.x1f 1) ∧
    (ctorBlock 2 uniBlock).dx1v 0
      = (ctorBlock 2 uniBlock).x1v 1 - (ctorBlock 2 uniBlock).x1v 0 ∧
    (ctorBlock 2 uniBlock).x2v 0 = (1/2 : ℚ) * (uniBlock.x2f 0 + uniBlock.x2f 1) ∧
    (ctorBlock 2 uniBlock).x3v 0 = (1/2 : ℚ) * (uniBlock.x3f 0 + uniBlock.x3f 1) := by
  obtain ⟨a1, a2, a3⟩ := ctor_centers_and_spacings 2 uniBlock
  refine ⟨⟨by decide, by decide, by decide, by decide, by decide, by decide⟩,
          ?_, ?_, ?_, ?_⟩
  · exact (a1 (by decide)).1 0 (by decide) (by decide)
  · exact (a1 (by decide)).2 0 (by decide) (by decide)
  · exact (a2 (by decide)).1 0 (by decide) (by decide)
  · exact (a3 (by decide)).1 0 (by decide) (by decide)

/-- C5: for a block with `nx2 == 1`, the constructor sets exactly one axis-2
center `x2v(js) = 0.5*(x2f(js) + x2f(js+1))` and one spacing
`dx2v(js) = x2f(js+1) - x2f(js)` (the code copies `dx2f(js)`, which equals
that width for a block satisfying the Mesh face-spacing invariant
`FaceConsistent`), and writes no other index of `x2v` or `dx2v`. -/
theorem ctor_unit_axis2 (g : Int) (pb : Block) (hb : FaceConsistent pb)
    (h : pb.nx2 = 1) :
    (ctorBlock g pb).x2v pb.js = (1/2 : ℚ) * (pb.x2f pb.js + pb.x2f (pb.js + 1)) ∧
    (ctorBlock g pb).dx2v pb.js = pb.x2f (pb.js + 1) - pb.x2f pb.js ∧
    (∀ j, j ≠ pb.js →
      (ctorBlock g pb).x2v j = pb.x2v j ∧ (ctorBlock g pb).dx2v j = pb.dx2v j) := by
  obtain ⟨-, hf2, -⟩ := hb
  refine ⟨?_, ?_, fun j hj => ⟨?_, ?_⟩⟩
  · rw [ctorBlock_x2v, x2vNew_unit g pb h, if_pos rfl]
  · rw [ctorBlock_dx2v, dx2vNew_unit g pb h, if_pos rfl, hf2]
  · rw [ctorBlock_x2v, x2vNew_unit g pb h, if_neg hj]
  · rw [ctorBlock_dx2v, dx2vNew_unit g pb h, if_neg hj]

/-- Witness for C5: `oneCellBlock` has `nx2 = 1` and consistent face spacings;
the single center and spacing appear at `js = 2`, and index `5` is untouched. -/
theorem ctor_unit_axis2_witness :
    (FaceConsistent oneCellBlock ∧ oneCellBlock.nx2 = 1) ∧
    (ctorBlock 2 oneCellBlock).x2v oneCellBlock.js
      = (1/2 : ℚ) * (oneCellBlock.x2f oneCellBlock.js
          + oneCellBlock.x2f (oneCellBlock.js + 1)) ∧
    (ctorBlock 2 oneCellBlock).dx2v oneCellBlock.js
      = oneCellBlock.x2f (oneCellBlock.js + 1) - oneCellBlock.x2f oneCellBlock.js ∧
    (ctorBlock 2 oneCellBlock).x2v 5 = oneCellBlock.x2v 5 := by
  have hb : FaceConsistent oneCellBlock := by
    refine ⟨fun i => ?_, fun j => ?_, fun k => ?_⟩ <;>
      (simp only [oneCellBlock]; push_cast; ring)
  obtain ⟨e1, e2, e3⟩ := ctor_unit_axis2 2 oneCellBlock hb rfl
  exact ⟨⟨hb, rfl⟩, e1, e2, (e3 5 (by decide)).1⟩

/-- Counterexample to C6: `oneCellBlock` has exactly one cell along axis 1
(`nx1 = 1`), yet the constructor does not apply the degenerate-axis
convention there: with `NGHOST = 2` the axis-1 spacing at `is = 2` is `6`
(difference of midpoints of the non-uniform faces `x = i^2`), not the
face-to-face width `5`, and a center is also written at index `3 = is + 1`, so
the axis is iterated as a range of size greater than 1. -/
theorem ctor_axis1_ignores_unit_extent :
    oneCellBlock.nx1 = 1 ∧
    (ctorBlock 2 oneCellBlock).dx1v 2
      ≠ oneCellBlock.x1f 3 - oneCellBlock.x1f 2 ∧
    (ctorBlock 2 oneCellBlock).x1v 3 ≠ oneCellBlock.x1v 3 := by
  refine ⟨rfl, ?_, ?_⟩
  · rw [ctorBlock_dx1v]
    norm_num [dx1vNew_apply, x1vNew_apply, oneCellBlock]
  · rw [ctorBlock_x1v]
    norm_num [x1vNew_apply, oneCellBlock]

/-- C6 amended: only axes 2 and 3 apply the degenerate-axis convention; an
axis-2 or axis-3 extent of exactly one cell (regardless of the other axes)
yields a single center computed from the two bounding faces and a spacing
equal to the face-to-face width (the stored face spacing, under the Mesh
face-spacing invariant), with no other index of those arrays written; axis 1
is always processed by the general recurrence over the ghost-extended range,
even when `nx1 == 1`. -/
theorem ctor_unit_convention_axes23_only (g : Int) (pb : Block)
    (hb : FaceConsistent pb) :
    (pb.nx2 = 1 →
      (ctorBlock g pb).x2v pb.js
        = (1/2 : ℚ) * (pb.x2f pb.js + pb.x2f (pb.js + 1)) ∧
      (ctorBlock g pb).dx2v pb.js = pb.x2f (pb.js + 1) - pb.x2f pb.js ∧
      (∀ j, j ≠ pb.js →
        (ctorBlock g pb).x2v j = pb.x2v j ∧ (ctorBlock g pb).dx2v j = pb.dx2v j)) ∧
    (pb.nx3 = 1 →
      (ctorBlock g pb).x3v pb.ks
        = (1/2 : ℚ) * (pb.x3f pb.ks + pb.x3f (pb.ks + 1)) ∧
      (ctorBlock g pb).dx3v pb.ks = pb.x3f (pb.ks + 1) - pb.x3f pb.ks ∧
      (∀ k, k ≠ pb.ks →
        (ctorBlock g pb).x3v k = pb.x3v k ∧ (ctorBlock g pb).dx3v k = pb.dx3v k)) ∧
    (∀ i, pb.is - g ≤ i → i ≤ pb.ie + g →
      (ctorBlock g pb).x1v i = (1/2 : ℚ) * (pb.x1f i + pb.x1f (i + 1))) := by
  obtain ⟨-, hf2, hf3⟩ := hb
  refine ⟨fun h2 => ⟨?_, ?_, fun j hj => ⟨?_, ?_⟩⟩,
          fun h3 => ⟨?_, ?_, fun k hk => ⟨?_, ?_⟩⟩,
          fun i hi1 hi2 => ?_⟩
  · rw [ctorBlock_x2v, x2vNew_unit g pb h2, if_pos rfl]
  · rw [ctorBlock_dx2v, dx2vNew_unit g pb h2, if_pos rfl, hf2]
  · rw [ctorBlock_x2v, x2vNew_unit g pb h2, if_neg hj]
  · rw [ctorBlock_dx2v, dx2vNew_unit g pb h2, if_neg hj]
  · rw [ctorBlock_x3v, x3vNew_unit g pb h3, if_pos rfl]
  · rw [ctorBlock_dx3v, dx3vNew_unit g pb h3, if_pos rfl, hf3]
  · rw [ctorBlock_x3v, x3vNew_unit g pb h3, if_neg hk]
  · rw [ctorBlock_dx3v, dx3vNew_unit g pb h3, if_neg hk]
  · rw [ctorBlock_x1v, x1vNew_apply, if_pos ⟨hi1, hi2⟩]

/-- Witness for the amended C6: on `oneCellBlock` (unit extent everywhere) the
axis-2 and axis-3 degenerate writes land at `js = ks = 2` only — indices `7`
and `6` are untouched — and axis 1 is run by the general recurrence: a
midpoint center appears at index `3` even though `nx1 = 1`. -/
theorem ctor_unit_convention_axes23_only_witness :
    (FaceConsistent oneCellBlock ∧ oneCellBlock.nx2 = 1 ∧ oneCellBlock.nx3 = 1 ∧
     oneCellBlock.is - 2 ≤ 3 ∧ (3 : Int) ≤ oneCellBlock.ie + 2) ∧
    (ctorBlock 2 oneCellBlock).x2v oneCellBlock.js
      = (1/2 : ℚ) * (oneCellBlock.x2f oneCellBlock.js
          + oneCellBlock.x2f (oneCellBlock.js + 1)) ∧
    (ctorBlock 2 oneCellBlock).dx2v oneCellBlock.js
      = oneCellBlock.x2f (oneCellBlock.js + 1) - oneCellBlock.x2f oneCellBlock.js ∧
    (ctorBlock 2 oneCellBlock).x2v 7 = oneCellBlock.x2v 7 ∧
    (ctorBlock 2 oneCellBlock).x3v oneCellBlock.ks
      = (1/2 : ℚ) * (oneCellBlock.x3f oneCellBlock.ks
          + oneCellBlock.x3f (oneCellBlock.ks + 1)) ∧
    (ctorBlock 2 oneCellBlock).dx3v oneCellBlock.ks
      = oneCellBlock.x3f (oneCellBlock.ks + 1) - oneCellBlock.x3f oneCellBlock.ks ∧
    (ctorBlock 2 oneCellBlock).x3v 6 = oneCellBlock.x3v 6 ∧
    (ctorBlock 2 oneCellBlock).x1v 3
      = (1/2 : ℚ) * (oneCellBlock.x1f 3 + oneCellBlock.x1f 4) := by
  have hb : FaceConsistent oneCellBlock := by
    refine ⟨fun i => ?_, fun j => ?_, fun k => ?_⟩ <;>
      (simp only [oneCellBlock]; push_cast; ring)
  obtain ⟨a2, a3, a1⟩ := ctor_unit_convention_axes23_only 2 oneCellBlock hb
  obtain ⟨e1, e2, e3⟩ := a2 rfl
  obtain ⟨f1, f2, f3⟩ := a3 rfl
  exact ⟨⟨hb, rfl, rfl, by decide, by decide⟩, e1, e2, (e3 7 (by decide)).1,
         f1, f2, (f3 6 (by decide)).1, a1 3 (by decide) (by decide)⟩

/-- Counterexample to C8: on the uniform block `uniBlock` (axis-1 faces at
`x = 2, 3, 4` over the interior), the sum of the constructed inter-center
spacings over the interior range `[is, ie-1]` is `1`, while the physical
extent `x1f(ie+1) - x1f(is)` is `2`: the sum falls short by half the first
plus half the last interior face spacing, far beyond rounding tolerance. -/
theorem ctor_spacing_sum_ne_extent :
    ((intRange uniBlock.is (uniBlock.ie - 1)).map (ctorBlock 2 uniBlock).dx1v).sum
      ≠ uniBlock.x1f (uniBlock.ie + 1) - uniBlock.x1f uniBlock.is := by
  have hr : intRange uniBlock.is (uniBlock.ie - 1) = [2] := by decide
  rw [hr, ctorBlock_dx1v]
  simp only [List.map_cons, List.map_nil, List.sum_cons, List.sum_nil]
  norm_num [dx1vNew_apply, x1vNew_apply, uniBlock]

/-- C8 amended: for every axis of extent greater than one cell (its interior
bounds ordered), the sum of the constructed inter-center spacings over the
interior range `[first, last-1]` telescopes to the distance between the first
and last interior cell centers,
`0.5*(x#f(last) + x#f(last+1)) - 0.5*(x#f(first) + x#f(first+1))` — not to the
full physical extent `x#f(last+1) - x#f(first)`. Each axis's statement is
independent of the other axes' extents. -/
theorem ctor_spacing_sum_telescopes (g : Int) (pb : Block) (hg : 0 ≤ g) :
    (1 < pb.nx1 → pb.is ≤ pb.ie →
      ((intRange pb.is (pb.ie - 1)).map (ctorBlock g pb).dx1v).sum
        = (1/2 : ℚ) * (pb.x1f pb.ie + pb.x1f (pb.ie + 1))
          - (1/2 : ℚ) * (pb.x1f pb.is + pb.x1f (pb.is + 1))) ∧
    (1 < pb.nx2 → pb.js ≤ pb.je →
      ((intRange pb.js (pb.je - 1)).map (ctorBlock g pb).dx2v).sum
        = (1/2 : ℚ) * (pb.x2f pb.je + pb.x2f (pb.je + 1))
          - (1/2 : ℚ) * (pb.x2f pb.js + pb.x2f (pb.js + 1))) ∧
    (1 < pb.nx3 → pb.ks ≤ pb.ke →
      ((intRange pb.ks (pb.ke - 1)).map (ctorBlock g pb).dx3v).sum
        = (1/2 : ℚ) * (pb.x3f pb.ke + pb.x3f (pb.ke + 1))
          - (1/2 : ℚ) * (pb.x3f pb.ks + pb.x3f (pb.ks + 1))) := by
  refine ⟨fun _ h1 => ?_, fun h2 h2b => ?_, fun h3 h3b => ?_⟩
  · have hmap : (intRange pb.is (pb.ie - 1)).map (ctorBlock g pb).dx1v
        = (intRange pb.is (pb.ie - 1)).map
            (fun i => x1vNew g pb (i + 1) - x1vNew g pb i) := by
      apply List.map_congr_left
      intro i hi
      rw [mem_intRange] at hi
      have hc : pb.is - g ≤ i ∧ i ≤ pb.ie + g - 1 := ⟨by omega, by omega⟩
      rw [ctorBlock_dx1v, dx1vNew_apply, if_pos hc]
    rw [hmap, sum_intRange_sub _ _ _ h1]
    have hce : pb.is - g ≤ pb.ie ∧ pb.ie ≤ pb.ie + g := ⟨by omega, by omega⟩
    have hcs : pb.is - g ≤ pb.is ∧ pb.is ≤ pb.ie + g := ⟨by omega, by omega⟩
    rw [x1vNew_apply, if_pos hce, x1vNew_apply, if_pos hcs]
  · have hne2 : pb.nx2 ≠ 1 := by omega
    have hmap : (intRange pb.js (pb.je - 1)).map (ctorBlock g pb).dx2v
        = (intRange pb.js (pb.je - 1)).map
            (fun j => x2vNew g pb (j + 1) - x2vNew g pb j) := by
      apply List.map_congr_left
      intro j hj
      rw [mem_intRange] at hj
      have hc : pb.js - g ≤ j ∧ j ≤ pb.je + g - 1 := ⟨by omega, by omega⟩
      rw [ctorBlock_dx2v, dx2vNew_ext g pb hne2, if_pos hc]
    rw [hmap, sum_intRange_sub _ _ _ h2b]
    have hce : pb.js - g ≤ pb.je ∧ pb.je ≤ pb.je + g := ⟨by omega, by omega⟩
    have hcs : pb.js - g ≤ pb.js ∧ pb.js ≤ pb.je + g := ⟨by omega, by omega⟩
    rw [x2vNew_ext g pb hne2, if_pos hce, x2vNew_ext g pb hne2, if_pos hcs]
  · have hne3 : pb.nx3 ≠ 1 := by omega
    have hmap : (intRange pb.ks (pb.ke - 1)).map (ctorBlock g pb).dx3v
        = (intRange pb.ks (pb.ke - 1)).map
            (fun k => x3vNew g pb (k + 1) - x3vNew g pb k) := by
      apply List.map_congr_left
      intro k hk
      rw [mem_intRange] at hk
      have hc : pb.ks - g ≤ k ∧ k ≤ pb.ke + g - 1 := ⟨by omega, by omega⟩
      rw [ctorBlock_dx3v, dx3vNew_ext g pb hne3, if_pos hc]
    rw [hmap, sum_intRange_sub _ _ _ h3b]
    have hce : pb.ks - g ≤ pb.ke ∧ pb.ke ≤ pb.ke + g := ⟨by omega, by omega⟩
    have hcs : pb.ks - g ≤ pb.ks ∧ pb.ks ≤ pb.ke + g := ⟨by omega, by omega⟩
    rw [x3vNew_ext g pb hne3, if_pos hce, x3vNew_ext g pb hne3, if_pos hcs]

/-- Witness for the amended C8: on `uniBlock` with `g = 2` the interior sum of
axis-1 spacings equals the distance between the outermost interior centers. -/
theorem ctor_spacing_sum_telescopes_witness :
    ((0 : Int) ≤ 2 ∧ 1 < uniBlock.nx1 ∧ uniBlock.is ≤ uniBlock.ie) ∧
    ((intRange uniBlock.is (uniBlock.ie - 1)).map (ctorBlock 2 uniBlock).dx1v).sum
      = (1/2 : ℚ) * (uniBlock.x1f uniBlock.ie + uniBlock.x1f (uniBlock.ie + 1))
        - (1/2 : ℚ) * (uniBlock.x1f uniBlock.is + uniBlock.x1f (uniBlock.is + 1)) := by
  refine ⟨⟨by decide, by decide, by decide⟩, ?_⟩
  exact (ctor_spacing_sum_telescopes 2 uniBlock (by decide)).1 (by decide) (by decide)

/-- Counterexample to C9: `invBlock` has inverted interior bounds on every
axis (`is = 3 > 1 = ie`), yet construction does not fail: the constructor
completes normally and writes an ordinary midpoint center,
`x1v(2) = 0.5*(x1f(2) + x1f(3)) = 5/2`, silently producing geometry from the
malformed block. -/
theorem ctor_accepts_inverted_bounds :
    invBlock.ie < invBlock.is ∧
    (ctorBlock 2 invBlock).x1v 2 = (5/2 : ℚ) := by
  refine ⟨by decide, ?_⟩
  rw [ctorBlock_x1v]
  norm_num [x1vNew_apply, invBlock]

/-- C9 amended: the constructor performs no precondition validation at all:
for every block — face arrays populated or not, index bounds inverted or not —
it completes and unconditionally computes midpoint centers over the
ghost-extended loop ranges from whatever face values are present, so bad
geometry propagates silently to the caller. -/
theorem ctor_unvalidated_total (g : Int) (pb : Block) (i : Int)
    (hi1 : pb.is - g ≤ i) (hi2 : i ≤ pb.ie + g) :
    (ctorBlock g pb).x1v i = (1/2 : ℚ) * (pb.x1f i + pb.x1f (i + 1)) := by
  rw [ctorBlock_x1v, x1vNew_apply, if_pos ⟨hi1, hi2⟩]

/-- Witness for the amended C9: the theorem applies to the inverted-bounds
block itself, with no well-formedness hypothesis to discharge. -/
theorem ctor_unvalidated_total_witness :
    (invBlock.is - 2 ≤ 2 ∧ (2 : Int) ≤ invBlock.ie + 2) ∧
    (ctorBlock 2 invBlock).x1v 2
      = (1/2 : ℚ) * (invBlock.x1f 2 + invBlock.x1f 3) :=
  ⟨⟨by decide, by decide⟩, ctor_unvalidated_total 2 invBlock 2 (by decide) (by decide)⟩

end Minkowski
